import Mathlib

/-!
Verification of the naaw event-aggregation core (src/src/main.rs).

The program maintains a `State` of tagged/untagged window nodes plus a
visibility flag, consumes a single ordered stream of events
(AddNode/RemoveNode/TagNode/ShowTag) and issues window-manager commands.
We embed the state model, the dispatcher loop body (`server`), the client
payload parsing (`handle_client_stream`) and the command-execution
behaviour of the `bspc_*` helpers, and prove or refute the specification's
claims about them.
-/

namespace Naaw

/-- A window node identifier: `struct Node(String)` in the source, an opaque
string compared by value.  Modelled as a list of characters. -/
structure Node where
  val : List Char
deriving DecidableEq, Repr

/-- Rust `enum TagStatus` returned by `State::toggle_tag`. -/
inductive TagStatus where
  | Tagged
  | Untagged
deriving DecidableEq, Repr

/-- Rust `struct State`: the authoritative membership model.  The Rust `HashSet`s
become `Finset`s (values compared by equality, no duplicates). -/
structure State where
  tagged_nodes : Finset Node
  untagged_nodes : Finset Node
  tag_shown : Bool
deriving DecidableEq

/-- Rust `State::new()`: both sets empty, `tag_shown: true`. -/
def State.new : State :=
  { tagged_nodes := ∅, untagged_nodes := ∅, tag_shown := true }

/-- Rust `State::add_node`: `self.untagged_nodes.insert(node)`.  Note the source
inserts into `untagged_nodes` unconditionally, without removing the node
from `tagged_nodes`. -/
def State.add_node (s : State) (node : Node) : State :=
  { s with untagged_nodes := insert node s.untagged_nodes }

/-- Rust `State::remove_node`: remove from both sets. -/
def State.remove_node (s : State) (node : Node) : State :=
  { s with
    tagged_nodes := s.tagged_nodes.erase node
    untagged_nodes := s.untagged_nodes.erase node }

/-- Rust `State::toggle_tag`: if the node is tagged, move it to untagged and
report `Untagged`; otherwise remove it from untagged (a no-op when absent),
insert it into tagged and report `Tagged`. -/
def State.toggle_tag (s : State) (node : Node) : State × TagStatus :=
  if node ∈ s.tagged_nodes then
    ({ s with
        tagged_nodes := s.tagged_nodes.erase node
        untagged_nodes := insert node s.untagged_nodes },
      TagStatus.Untagged)
  else
    ({ s with
        untagged_nodes := s.untagged_nodes.erase node
        tagged_nodes := insert node s.tagged_nodes },
      TagStatus.Tagged)

/-- Rust `State::is_tag_shown`. -/
def State.is_tag_shown (s : State) : Bool :=
  s.tag_shown

/-- Rust `State::toggle_tag_visibility`: flip `tag_shown` and return the (now
current) set of tagged nodes for the caller to iterate. -/
def State.toggle_tag_visibility (s : State) : State × Finset Node :=
  ({ s with tag_shown := !s.tag_shown }, s.tagged_nodes)

/-- Rust `enum Event`. -/
inductive Event where
  | AddNode (node : Node)
  | RemoveNode (node : Node)
  | TagNode (node : Node)
  | ShowTag
deriving DecidableEq, Repr

/-- The window-manager commands the dispatcher issues:
`bspc_set_border_width(node, width)`, `bspc_reset_border_width(node)` and
`bspc_toggle_visibility(node)`. -/
inductive Cmd where
  | setBorderWidth (node : Node) (width : Nat)
  | resetBorderWidth (node : Node)
  | toggleVisibility (node : Node)
deriving DecidableEq, Repr

/-- One iteration of the `server` dispatcher loop: apply the event to the
state and collect the window-manager commands issued.  The commands are
collected as a multiset because the `ShowTag` arm iterates a `HashSet`,
whose enumeration order is unspecified. -/
def serverStep (s : State) (e : Event) : State × Multiset Cmd :=
  match e with
  | Event.AddNode node => (s.add_node node, 0)
  | Event.RemoveNode node => (s.remove_node node, 0)
  | Event.TagNode node =>
    let r := s.toggle_tag node
    match r.2 with
    | TagStatus.Tagged =>
      (r.1,
        Cmd.setBorderWidth node 3 ::ₘ
          (if !r.1.is_tag_shown then {Cmd.toggleVisibility node} else 0))
    | TagStatus.Untagged => (r.1, {Cmd.resetBorderWidth node})
  | Event.ShowTag =>
    let r := s.toggle_tag_visibility
    (r.1, r.2.val.map Cmd.toggleVisibility)

/-- Run the dispatcher over a sequence of events, returning the final
state. -/
def run (s : State) : List Event → State
  | [] => s
  | e :: es => run (serverStep s e).1 es

/-! ### Client payload parsing (`handle_client_stream`) -/

/-- Rust's strip-the-leading-marker operation on strings (as used with the
`"tag "` marker): `some r` when the second argument is the first argument
followed by `r`, `none` otherwise. -/
def stripPre : List Char → List Char → Option (List Char)
  | [], s => some s
  | _ :: _, [] => none
  | p :: ps, c :: cs => if c = p then stripPre ps cs else none

/-- The payload dispatch of `handle_client_stream`: `"show"` (exact
equality) maps to `ShowTag`, a `"tag "` marker followed by a node
identifier maps to `TagNode`, anything else is unsupported (`none`). -/
def parseMessage (message : List Char) : Option Event :=
  if message = "show".toList then some Event.ShowTag
  else
    match stripPre "tag ".toList message with
    | some node => some (Event.TagNode ⟨node⟩)
    | none => none

/-- Rust `handle_client_stream`, given the result of
`stream.read_to_string(&mut message)` (`none` models a read error).  The
result is `none` when the function panics (the `.unwrap()` on the read);
otherwise `some (forwarded event, log lines)`. -/
def handle_client_stream (readResult : Option (List Char)) :
    Option (Option Event × List (List Char)) :=
  match readResult with
  | none => none
  | some message =>
    match parseMessage message with
    | some e => some (some e, [])
    | none => some (none, ["Unsupported message ".toList ++ message])

/-- The accept loop of `subscribe_client`: each accepted connection is
handled inline by `handle_client_stream`; a panic there unwinds the
listener thread, so no later connection is processed. -/
def acceptLoop : List (Option (List Char)) →
    List (Option Event × List (List Char))
  | [] => []
  | r :: rs =>
    match handle_client_stream r with
    | none => []
    | some out => out :: acceptLoop rs

/-! ### Command execution (`bspc_*` helpers) -/

/-- The distinct `bspc` process invocations the dispatcher's helpers make:
`bspc node <id> -g hidden` (from `bspc_toggle_visibility`),
`bspc config -n <id> border_width <w>` (from `bspc_set_border_width`) and
the query `bspc config border_width` (from `bspc_reset_border_width`). -/
inductive BspcCall where
  | nodeToggleVisibility (node : Node)
  | configSetBorderWidth (node : Node) (width : Nat)
  | configGetBorderWidth
deriving DecidableEq, Repr

/-- An oracle giving the outcome of each `Command::new("bspc")....output()`
invocation: `none` models `Err` (spawn/`IO` failure, whose `.unwrap()`
panics), `some out` a completed invocation carrying its stdout.  The exit
status is carried by the real `Output` too, but the source never inspects
it — a nonzero exit is a completed invocation, typically with empty
stdout.  Stdout is modelled as already-decoded text, so the
`from_utf8(..).unwrap()` panic on non-UTF-8 stdout is outside the model. -/
abbrev ExecOracle : Type :=
  BspcCall → Option (List Char)

/-- Whitespace as trimmed by Rust's trim operation (`char::is_whitespace`),
restricted to the ASCII range (all that `bspc` output can contain):
U+0009–U+000D and U+0020. -/
def isWhitespaceChar (c : Char) : Bool :=
  c = ' ' || c = '\t' || c = '\n' || c = '\x0b' || c = '\x0c' || c = '\r'

/-- Rust's trim operation on strings: drop whitespace from both ends. -/
def trimChars (s : List Char) : List Char :=
  ((s.dropWhile isWhitespaceChar).reverse.dropWhile isWhitespaceChar).reverse

/-- Rust `str::parse::<usize>()`: an optional leading `+`, then one or
more ASCII digits, rejecting values that overflow a 64-bit `usize`. -/
def parseUsize (s : List Char) : Option Nat :=
  let digits :=
    match s with
    | '+' :: rest => rest
    | _ => s
  if digits = [] then none
  else if digits.all Char.isDigit then
    let v := digits.foldl (fun acc c => acc * 10 + (c.toNat - '0'.toNat)) 0
    if v < 2 ^ 64 then some v else none
  else none

/-- Rust `bspc_toggle_visibility`: one invocation, `.output().unwrap()` —
`none` (panic) exactly when the invocation `IO`-fails; a completed
invocation is never inspected further. -/
def bspc_toggle_visibility (exec : ExecOracle) (node : Node) :
    Option Unit :=
  match exec (BspcCall.nodeToggleVisibility node) with
  | none => none
  | some _ => some ()

/-- Rust `bspc_set_border_width`: one invocation, `.output().unwrap()`. -/
def bspc_set_border_width (exec : ExecOracle) (node : Node)
    (width : Nat) : Option Unit :=
  match exec (BspcCall.configSetBorderWidth node width) with
  | none => none
  | some _ => some ()

/-- Rust `bspc_reset_border_width`: run the `bspc config border_width`
query (`.output().unwrap()` — `IO` failure panics), parse its trimmed
stdout (`.trim().parse().unwrap()` — parse failure panics, e.g. on the
empty stdout of a nonzero-exit query), then set that width via
`bspc_set_border_width`. -/
def bspc_reset_border_width (exec : ExecOracle) (node : Node) :
    Option Unit :=
  match exec BspcCall.configGetBorderWidth with
  | none => none
  | some out =>
    match parseUsize (trimChars out) with
    | none => none
    | some default_border_width =>
      bspc_set_border_width exec node default_border_width

/-- Execute one dispatcher command through the helper it is issued by. -/
def execCmd (exec : ExecOracle) : Cmd → Option Unit
  | Cmd.setBorderWidth node width => bspc_set_border_width exec node width
  | Cmd.resetBorderWidth node => bspc_reset_border_width exec node
  | Cmd.toggleVisibility node => bspc_toggle_visibility exec node

/-- Dispatcher loop body including command execution: the state transition
is applied first, then each issued command is executed; a panic in any
helper (`execCmd` = `none`) aborts the iteration (`none`), and nothing is
ever logged.  Whether a panic occurs does not depend on the `HashSet`
enumeration order, so it is expressed as a count over the issued
multiset. -/
def serverStepExec (exec : ExecOracle) (s : State) (e : Event) :
    Option (State × List (List Char)) :=
  let r := serverStep s e
  if r.2.countP (fun c => execCmd exec c = none) = 0 then
    some (r.1, [])
  else none

/-- Run the dispatcher with command execution over an event sequence; a
panic anywhere stops the loop (the process dies). -/
def runExec (exec : ExecOracle) (s : State) :
    List Event → Option (State × List (List Char))
  | [] => some (s, [])
  | e :: es =>
    match serverStepExec exec s e with
    | none => none
    | some r =>
      match runExec exec r.1 es with
      | none => none
      | some r2 => some (r2.1, r.2 ++ r2.2)

/-! ### Run predicates used by the invariant claims -/

/-- Holds (as `true`) when the event is not an `AddNode` for a node currently in the
tagged set (the one situation in which `State::add_node` breaks the
disjointness of the two sets). -/
def addSafe (s : State) : Event → Bool
  | Event.AddNode node => decide (node ∉ s.tagged_nodes)
  | _ => true

/-- Holds (as `true`) when every `AddNode` in the sequence is processed while its node
is not in the tagged set. -/
def runSafe (s : State) : List Event → Bool
  | [] => true
  | e :: es => addSafe s e && runSafe (serverStep s e).1 es

/-! ## Theorems -/

/-- The `toggle_tag` operation never touches the visibility flag. -/
theorem toggle_tag_tag_shown (s : State) (n : Node) :
    (s.toggle_tag n).1.tag_shown = s.tag_shown := by
  unfold State.toggle_tag
  split <;> rfl

/-- C9: for every state — including one in which a node is in both sets —
after `toggle_tag(n)` the node `n` is in exactly one of `tagged_nodes`
and `untagged_nodes`. -/
theorem toggle_tag_exactly_one (s : State) (n : Node) :
    (n ∈ (s.toggle_tag n).1.tagged_nodes ∧
        n ∉ (s.toggle_tag n).1.untagged_nodes) ∨
      (n ∉ (s.toggle_tag n).1.tagged_nodes ∧
        n ∈ (s.toggle_tag n).1.untagged_nodes) := by
  unfold State.toggle_tag
  split
  · right
    simp
  · left
    simp

/-- Witness for `toggle_tag_exactly_one` at a concrete state and node. -/
theorem toggle_tag_exactly_one_witness :
    ((⟨['a']⟩ : Node) ∈ (State.new.toggle_tag ⟨['a']⟩).1.tagged_nodes ∧
        (⟨['a']⟩ : Node) ∉ (State.new.toggle_tag ⟨['a']⟩).1.untagged_nodes) ∨
      ((⟨['a']⟩ : Node) ∉ (State.new.toggle_tag ⟨['a']⟩).1.tagged_nodes ∧
        (⟨['a']⟩ : Node) ∈ (State.new.toggle_tag ⟨['a']⟩).1.untagged_nodes) :=
  toggle_tag_exactly_one State.new ⟨['a']⟩

/-- C5: `ToggleTag(n)` on a node tracked in neither set inserts `n`
directly into `tagged_nodes`, leaves `untagged_nodes` unchanged and
reports `Tagged`; being a total function, it neither errors nor
panics. -/
theorem toggle_tag_untracked (s : State) (n : Node)
    (ht : n ∉ s.tagged_nodes) (hu : n ∉ s.untagged_nodes) :
    (s.toggle_tag n).1.tagged_nodes = insert n s.tagged_nodes ∧
      (s.toggle_tag n).1.untagged_nodes = s.untagged_nodes ∧
      (s.toggle_tag n).1.tag_shown = s.tag_shown ∧
      (s.toggle_tag n).2 = TagStatus.Tagged := by
  unfold State.toggle_tag
  rw [if_neg ht]
  exact ⟨rfl, Finset.erase_eq_of_not_mem hu, rfl, rfl⟩

/-- Witness for `toggle_tag_untracked` at a fresh node in the initial
state. -/
theorem toggle_tag_untracked_witness :
    (State.new.toggle_tag ⟨['a']⟩).1.tagged_nodes =
        insert ⟨['a']⟩ State.new.tagged_nodes ∧
      (State.new.toggle_tag ⟨['a']⟩).1.untagged_nodes =
        State.new.untagged_nodes ∧
      (State.new.toggle_tag ⟨['a']⟩).1.tag_shown = State.new.tag_shown ∧
      (State.new.toggle_tag ⟨['a']⟩).2 = TagStatus.Tagged :=
  toggle_tag_untracked State.new ⟨['a']⟩ (by decide) (by decide)

/-- C6: `RemoveNode(n)` erases `n` from both sets and issues no command;
when `n` is absent from both sets the state is unchanged; and the
operation is idempotent. -/
theorem remove_node_spec (s : State) (n : Node) :
    (s.remove_node n).tagged_nodes = s.tagged_nodes.erase n ∧
      (s.remove_node n).untagged_nodes = s.untagged_nodes.erase n ∧
      (s.remove_node n).tag_shown = s.tag_shown ∧
      (serverStep s (Event.RemoveNode n)).2 = 0 ∧
      (n ∉ s.tagged_nodes → n ∉ s.untagged_nodes → s.remove_node n = s) ∧
      (s.remove_node n).remove_node n = s.remove_node n := by
  refine ⟨rfl, rfl, rfl, rfl, ?_, ?_⟩
  · intro ht hu
    unfold State.remove_node
    rw [Finset.erase_eq_of_not_mem ht, Finset.erase_eq_of_not_mem hu]
  · unfold State.remove_node
    simp

/-- Witness for `remove_node_spec` on the initial state, where the node is
absent from both sets. -/
theorem remove_node_spec_witness :
    State.new.remove_node ⟨['a']⟩ = State.new :=
  (remove_node_spec State.new ⟨['a']⟩).2.2.2.2.1 (by decide) (by decide)

/-- C2: dispatching `TagNode n` when `n` is not tagged moves `n` from
`untagged_nodes` into `tagged_nodes` and issues the border (emphasis)
command plus — exactly when `tag_shown` is false — a visibility toggle;
when `n` is tagged it moves `n` back to `untagged_nodes` and issues only
the border reset. -/
theorem serverStep_tag_node (s : State) (n : Node) :
    (n ∉ s.tagged_nodes →
        (serverStep s (Event.TagNode n)).1.tagged_nodes =
            insert n s.tagged_nodes ∧
          (serverStep s (Event.TagNode n)).1.untagged_nodes =
            s.untagged_nodes.erase n ∧
          (serverStep s (Event.TagNode n)).2 =
            Cmd.setBorderWidth n 3 ::ₘ
              (if s.tag_shown then 0 else {Cmd.toggleVisibility n}) ∧
          (Cmd.toggleVisibility n ∈ (serverStep s (Event.TagNode n)).2 ↔
            s.tag_shown = false)) ∧
      (n ∈ s.tagged_nodes →
        (serverStep s (Event.TagNode n)).1.tagged_nodes =
            s.tagged_nodes.erase n ∧
          (serverStep s (Event.TagNode n)).1.untagged_nodes =
            insert n s.untagged_nodes ∧
          (serverStep s (Event.TagNode n)).2 = {Cmd.resetBorderWidth n}) := by
  constructor
  · intro h
    cases hs : s.tag_shown <;>
      simp [serverStep, State.toggle_tag, if_neg h, State.is_tag_shown, hs]
  · intro h
    simp [serverStep, State.toggle_tag, if_pos h]

/-- Witness for `serverStep_tag_node`: tagging a fresh node in the initial
state issues the border command and, since the tag is shown, no visibility
toggle. -/
theorem serverStep_tag_node_witness :
    (serverStep State.new (Event.TagNode ⟨['a']⟩)).1.tagged_nodes =
        insert ⟨['a']⟩ State.new.tagged_nodes ∧
      (serverStep State.new (Event.TagNode ⟨['a']⟩)).1.untagged_nodes =
        State.new.untagged_nodes.erase ⟨['a']⟩ ∧
      (serverStep State.new (Event.TagNode ⟨['a']⟩)).2 =
        Cmd.setBorderWidth ⟨['a']⟩ 3 ::ₘ
          (if State.new.tag_shown then 0 else {Cmd.toggleVisibility ⟨['a']⟩}) ∧
      (Cmd.toggleVisibility ⟨['a']⟩ ∈
          (serverStep State.new (Event.TagNode ⟨['a']⟩)).2 ↔
        State.new.tag_shown = false) :=
  (serverStep_tag_node State.new ⟨['a']⟩).1 (by decide)

/-- C3: `tag_shown` starts true; a `ShowTag` event flips it exactly once
and issues exactly one visibility toggle per currently tagged node and no
other command; no other event kind changes `tag_shown`. -/
theorem show_tag_spec :
    State.new.tag_shown = true ∧
      (∀ s : State,
        (serverStep s Event.ShowTag).1.tag_shown = !s.tag_shown) ∧
      (∀ (s : State) (n : Node),
        (serverStep s Event.ShowTag).2.count (Cmd.toggleVisibility n) =
          if n ∈ s.tagged_nodes then 1 else 0) ∧
      (∀ (s : State) (c : Cmd), c ∈ (serverStep s Event.ShowTag).2 →
        ∃ n ∈ s.tagged_nodes, c = Cmd.toggleVisibility n) ∧
      (∀ (s : State) (e : Event), e ≠ Event.ShowTag →
        (serverStep s e).1.tag_shown = s.tag_shown) := by
  refine ⟨rfl, fun s => rfl, ?_, ?_, ?_⟩
  · intro s n
    have hinj : Function.Injective Cmd.toggleVisibility := by
      intro a b h
      cases h
      rfl
    simp only [serverStep, State.toggle_tag_visibility]
    rw [Multiset.count_map_eq_count' _ _ hinj]
    by_cases h : n ∈ s.tagged_nodes
    · rw [if_pos h]
      exact Multiset.count_eq_one_of_mem s.tagged_nodes.nodup h
    · rw [if_neg h]
      exact Multiset.count_eq_zero_of_not_mem h
  · intro s c hc
    simp only [serverStep, State.toggle_tag_visibility, Multiset.mem_map] at hc
    obtain ⟨n, hn, rfl⟩ := hc
    exact ⟨n, hn, rfl⟩
  · intro s e he
    cases e with
    | AddNode n => rfl
    | RemoveNode n => rfl
    | TagNode n =>
      simp only [serverStep]
      split <;> exact toggle_tag_tag_shown s n
    | ShowTag => exact absurd rfl he

/-- Witness for `show_tag_spec`: in the initial state a `ShowTag` issues
zero visibility toggles, and an `AddNode` leaves `tag_shown` alone. -/
theorem show_tag_spec_witness :
    (serverStep State.new Event.ShowTag).2.count
          (Cmd.toggleVisibility ⟨['a']⟩) =
        (if (⟨['a']⟩ : Node) ∈ State.new.tagged_nodes then 1 else 0) ∧
      (serverStep State.new (Event.AddNode ⟨['a']⟩)).1.tag_shown =
        State.new.tag_shown :=
  ⟨show_tag_spec.2.2.1 State.new ⟨['a']⟩,
    show_tag_spec.2.2.2.2 State.new (Event.AddNode ⟨['a']⟩) (by decide)⟩

/-- Dispatching `TagNode n` with `n` currently tagged issues exactly the
border reset. -/
theorem serverStep_tag_cmds_of_mem (s : State) (n : Node)
    (h : n ∈ s.tagged_nodes) :
    (serverStep s (Event.TagNode n)).2 = {Cmd.resetBorderWidth n} := by
  simp only [serverStep, State.toggle_tag, if_pos h]

/-- The state reached by dispatching `TagNode` does not depend on which
`TagStatus` branch the dispatcher takes. -/
theorem serverStep_tag_fst (s : State) (n : Node) :
    (serverStep s (Event.TagNode n)).1 = (s.toggle_tag n).1 := by
  simp only [serverStep]
  split <;> rfl

/-- One dispatcher step preserves disjointness of the two sets, provided
an `AddNode` is not processed while its node is tagged. -/
theorem disjoint_serverStep (s : State) (e : Event)
    (hd : s.tagged_nodes ∩ s.untagged_nodes = ∅)
    (hs : addSafe s e = true) :
    (serverStep s e).1.tagged_nodes ∩ (serverStep s e).1.untagged_nodes =
      ∅ := by
  rw [Finset.eq_empty_iff_forall_not_mem] at hd ⊢
  intro x hx
  rw [Finset.mem_inter] at hx
  cases e with
  | AddNode n =>
    have hn : n ∉ s.tagged_nodes := of_decide_eq_true hs
    simp only [serverStep, State.add_node, Finset.mem_insert] at hx
    rcases hx with ⟨hxt, rfl | hxu⟩
    · exact hn hxt
    · exact hd x (Finset.mem_inter.mpr ⟨hxt, hxu⟩)
  | RemoveNode n =>
    simp only [serverStep, State.remove_node, Finset.mem_erase] at hx
    exact hd x (Finset.mem_inter.mpr ⟨hx.1.2, hx.2.2⟩)
  | TagNode n =>
    rw [serverStep_tag_fst] at hx
    unfold State.toggle_tag at hx
    split at hx
    · simp only [Finset.mem_erase, Finset.mem_insert] at hx
      rcases hx with ⟨⟨hne, hxt⟩, rfl | hxu⟩
      · exact hne rfl
      · exact hd x (Finset.mem_inter.mpr ⟨hxt, hxu⟩)
    · simp only [Finset.mem_insert, Finset.mem_erase] at hx
      rcases hx with ⟨rfl | hxt, hne, hxu⟩
      · exact hne rfl
      · exact hd x (Finset.mem_inter.mpr ⟨hxt, hxu⟩)
  | ShowTag => exact hd x (Finset.mem_inter.mpr hx)

/-- Disjointness is maintained along any run whose `AddNode` events all
target currently untagged nodes. -/
theorem run_disjoint_of_disjoint (es : List Event) (s : State)
    (hd : s.tagged_nodes ∩ s.untagged_nodes = ∅)
    (hs : runSafe s es = true) :
    (run s es).tagged_nodes ∩ (run s es).untagged_nodes = ∅ := by
  induction es generalizing s with
  | nil => exact hd
  | cons e es ih =>
    rw [runSafe, Bool.and_eq_true] at hs
    exact ih _ (disjoint_serverStep s e hd hs.1) hs.2

/-- C1 (amended): starting from the initial state, `tagged_nodes` and
`untagged_nodes` stay disjoint along every event sequence in which no
`AddNode(n)` is processed while `n` is in the tagged set.  (Applying this
to every prefix of a sequence gives disjointness after each event.)  The
claim's unrestricted form — covering `AddNode(n)` arriving while `n` is
tagged — is refuted by `add_while_tagged_breaks_disjointness`. -/
theorem run_disjoint (es : List Event)
    (hs : runSafe State.new es = true) :
    (run State.new es).tagged_nodes ∩ (run State.new es).untagged_nodes =
      ∅ :=
  run_disjoint_of_disjoint es State.new rfl hs

/-- Witness for `run_disjoint` on the sequence add-then-tag. -/
theorem run_disjoint_witness :
    runSafe State.new
        [Event.AddNode ⟨['a']⟩, Event.TagNode ⟨['a']⟩] = true ∧
      (run State.new
            [Event.AddNode ⟨['a']⟩, Event.TagNode ⟨['a']⟩]).tagged_nodes ∩
          (run State.new
            [Event.AddNode ⟨['a']⟩,
              Event.TagNode ⟨['a']⟩]).untagged_nodes = ∅ :=
  ⟨by decide, run_disjoint [Event.AddNode ⟨['a']⟩, Event.TagNode ⟨['a']⟩]
    (by decide)⟩

/-- C1 counterexample: `ToggleTag(n)` on an untracked node puts `n` in
`tagged_nodes`, and a subsequent `AddNode(n)` inserts `n` into
`untagged_nodes` without removing it from `tagged_nodes`, so the two sets
intersect. -/
theorem add_while_tagged_breaks_disjointness :
    (run State.new
          [Event.TagNode ⟨['a']⟩, Event.AddNode ⟨['a']⟩]).tagged_nodes ∩
        (run State.new
          [Event.TagNode ⟨['a']⟩,
            Event.AddNode ⟨['a']⟩]).untagged_nodes ≠ ∅ := by
  decide

/-- C4 counterexample: a node tracked in neither set does not return to
"neither" after two successive `ToggleTag`s — it ends up in
`untagged_nodes`. -/
theorem double_toggle_not_round_trip :
    (⟨['a']⟩ : Node) ∉ State.new.tagged_nodes ∧
      (⟨['a']⟩ : Node) ∉ State.new.untagged_nodes ∧
      (⟨['a']⟩ : Node) ∈
        (run State.new
          [Event.TagNode ⟨['a']⟩,
            Event.TagNode ⟨['a']⟩]).untagged_nodes := by
  decide

/-- C4 (amended): two successive `TagNode n` dispatches with no
intervening event restore `n`'s membership in both sets provided `n` was
in exactly one of them; `tag_shown` is untouched in between; and in every
case the visibility toggle for `n` is only ever issued on the transition
into `tagged_nodes`, never on the transition out (whose command set is
just the border reset).  For a node tracked in neither set the membership
round trip fails (`double_toggle_not_round_trip`). -/
theorem double_toggle_round_trip (s : State) (n : Node) :
    (((n ∈ s.tagged_nodes ∧ n ∉ s.untagged_nodes) ∨
          (n ∉ s.tagged_nodes ∧ n ∈ s.untagged_nodes)) →
        ((n ∈ (serverStep (serverStep s (Event.TagNode n)).1
                (Event.TagNode n)).1.tagged_nodes ↔
            n ∈ s.tagged_nodes) ∧
          (n ∈ (serverStep (serverStep s (Event.TagNode n)).1
                (Event.TagNode n)).1.untagged_nodes ↔
            n ∈ s.untagged_nodes))) ∧
      (serverStep (serverStep s (Event.TagNode n)).1
          (Event.TagNode n)).1.tag_shown = s.tag_shown ∧
      (n ∈ s.tagged_nodes →
        Cmd.toggleVisibility n ∉ (serverStep s (Event.TagNode n)).2) ∧
      (n ∉ s.tagged_nodes →
        Cmd.toggleVisibility n ∉
          (serverStep (serverStep s (Event.TagNode n)).1
            (Event.TagNode n)).2) := by
  refine ⟨?_, ?_, ?_, ?_⟩
  · rintro (⟨ht, hu⟩ | ⟨ht, hu⟩) <;>
      simp [serverStep_tag_fst, State.toggle_tag, ht, hu,
        Finset.erase_eq_of_not_mem]
  · rw [serverStep_tag_fst, serverStep_tag_fst, toggle_tag_tag_shown,
      toggle_tag_tag_shown]
  · intro ht
    rw [serverStep_tag_cmds_of_mem s n ht]
    simp
  · intro ht
    have h1 : n ∈ (serverStep s (Event.TagNode n)).1.tagged_nodes := by
      rw [serverStep_tag_fst]
      simp [State.toggle_tag, ht]
    rw [serverStep_tag_cmds_of_mem _ n h1]
    simp

/-- Witness for `double_toggle_round_trip`: a node alone in the untagged
set of a concrete state round-trips, and its second toggle carries no
visibility command. -/
theorem double_toggle_round_trip_witness :
    ((⟨['a']⟩ : Node) ∈
        (serverStep (serverStep (State.new.add_node ⟨['a']⟩)
              (Event.TagNode ⟨['a']⟩)).1
            (Event.TagNode ⟨['a']⟩)).1.tagged_nodes ↔
      (⟨['a']⟩ : Node) ∈ (State.new.add_node ⟨['a']⟩).tagged_nodes) ∧
      ((⟨['a']⟩ : Node) ∈
          (serverStep (serverStep (State.new.add_node ⟨['a']⟩)
                (Event.TagNode ⟨['a']⟩)).1
              (Event.TagNode ⟨['a']⟩)).1.untagged_nodes ↔
        (⟨['a']⟩ : Node) ∈ (State.new.add_node ⟨['a']⟩).untagged_nodes) :=
  (double_toggle_round_trip (State.new.add_node ⟨['a']⟩) ⟨['a']⟩).1
    (Or.inr ⟨by decide, by decide⟩)

/-- The helper for `setBorderWidth` panics exactly when its single
invocation `IO`-fails; a completed invocation is never inspected. -/
theorem execCmd_set_eq_none_iff (exec : ExecOracle) (n : Node) (w : Nat) :
    execCmd exec (Cmd.setBorderWidth n w) = none ↔
      exec (BspcCall.configSetBorderWidth n w) = none := by
  unfold execCmd bspc_set_border_width
  cases h : exec (BspcCall.configSetBorderWidth n w) <;> simp [h]

/-- The helper for `toggleVisibility` panics exactly when its single
invocation `IO`-fails; a completed invocation is never inspected. -/
theorem execCmd_toggle_eq_none_iff (exec : ExecOracle) (n : Node) :
    execCmd exec (Cmd.toggleVisibility n) = none ↔
      exec (BspcCall.nodeToggleVisibility n) = none := by
  unfold execCmd bspc_toggle_visibility
  cases h : exec (BspcCall.nodeToggleVisibility n) <;> simp [h]

/-- The helper for `resetBorderWidth` panics exactly when the
`bspc config border_width` query `IO`-fails, or the query completes but
its trimmed stdout does not parse as a `usize` (the `.parse().unwrap()`),
or the follow-up set invocation `IO`-fails. -/
theorem execCmd_reset_eq_none_iff (exec : ExecOracle) (n : Node) :
    execCmd exec (Cmd.resetBorderWidth n) = none ↔
      (exec BspcCall.configGetBorderWidth = none ∨
        ∃ out, exec BspcCall.configGetBorderWidth = some out ∧
          (parseUsize (trimChars out) = none ∨
            ∃ w, parseUsize (trimChars out) = some w ∧
              exec (BspcCall.configSetBorderWidth n w) = none)) := by
  unfold execCmd bspc_reset_border_width bspc_set_border_width
  cases hq : exec BspcCall.configGetBorderWidth with
  | none => simp [hq]
  | some out =>
    cases hp : parseUsize (trimChars out) with
    | none => simp [hq, hp]
    | some w =>
      cases hs : exec (BspcCall.configSetBorderWidth n w) with
      | none => simp [hq, hp, hs]
      | some u => simp [hq, hp, hs]

/-- When no issued command's helper panics, the dispatcher iteration
completes with the transitioned state and an empty log. -/
theorem serverStepExec_ok (exec : ExecOracle) (s : State) (e : Event)
    (h : ∀ c, execCmd exec c ≠ none) :
    serverStepExec exec s e = some ((serverStep s e).1, []) := by
  unfold serverStepExec
  rw [if_pos]
  rw [Multiset.countP_eq_zero]
  exact fun c _ => h c

/-- When no command's helper panics, the whole run completes with the
same final state as the pure dispatcher and an empty log. -/
theorem runExec_ok (exec : ExecOracle) (s : State) (es : List Event)
    (h : ∀ c, execCmd exec c ≠ none) :
    runExec exec s es = some (run s es, []) := by
  induction es generalizing s with
  | nil => rfl
  | cons e es ih =>
    unfold runExec
    rw [serverStepExec_ok exec s e h]
    simp only [ih]
    rfl

/-- C7 counterexample, both failure modes the claim covers: an `IO` error
on the border invocation of a `TagNode` dispatch panics the iteration
(`none`), and so does a `TagNode` dispatch out of the tagged set whose
`bspc config border_width` query completes with empty stdout — what a
nonzero-exit query produces — because `.trim().parse().unwrap()` fails.
Neither failure is logged; the claim says both are logged and survived. -/
theorem command_failure_panics :
    serverStepExec (fun _ => none) State.new
        (Event.TagNode ⟨['a']⟩) = none ∧
      serverStepExec (fun _ => some [])
        (State.new.toggle_tag ⟨['a']⟩).1 (Event.TagNode ⟨['a']⟩) = none := by
  constructor <;> rfl

/-- C7 (amended): no command failure is ever logged and the applied state
transition is never rolled back, but failures are not survived: when every
helper invocation a step needs succeeds the dispatcher continues unlogged
with the transitioned state (also across whole runs), and it panics —
instead of logging and continuing — whenever any helper panics.  The
per-helper conditions: the emphasis-set and visibility helpers panic
exactly on an `IO` failure of their single invocation (a nonzero exit is
never inspected and survives), while the emphasis-reset helper
additionally panics when its completed `bspc config border_width` query
yields stdout that does not trim-and-parse as a `usize` — e.g. the empty
stdout of a nonzero-exit query. -/
theorem command_failure_semantics :
    (∀ (exec : ExecOracle) (s : State) (e : Event),
        (∀ c, execCmd exec c ≠ none) →
        serverStepExec exec s e = some ((serverStep s e).1, [])) ∧
      (∀ (exec : ExecOracle) (s : State) (es : List Event),
        (∀ c, execCmd exec c ≠ none) →
        runExec exec s es = some (run s es, [])) ∧
      (∀ (exec : ExecOracle) (s : State) (e : Event) (c : Cmd),
        c ∈ (serverStep s e).2 → execCmd exec c = none →
        serverStepExec exec s e = none) ∧
      (∀ (exec : ExecOracle) (n : Node) (w : Nat),
        execCmd exec (Cmd.setBorderWidth n w) = none ↔
          exec (BspcCall.configSetBorderWidth n w) = none) ∧
      (∀ (exec : ExecOracle) (n : Node),
        execCmd exec (Cmd.toggleVisibility n) = none ↔
          exec (BspcCall.nodeToggleVisibility n) = none) ∧
      (∀ (exec : ExecOracle) (n : Node),
        execCmd exec (Cmd.resetBorderWidth n) = none ↔
          (exec BspcCall.configGetBorderWidth = none ∨
            ∃ out, exec BspcCall.configGetBorderWidth = some out ∧
              (parseUsize (trimChars out) = none ∨
                ∃ w, parseUsize (trimChars out) = some w ∧
                  exec (BspcCall.configSetBorderWidth n w) = none))) := by
  refine ⟨serverStepExec_ok, runExec_ok, ?_, execCmd_set_eq_none_iff,
    execCmd_toggle_eq_none_iff, execCmd_reset_eq_none_iff⟩
  intro exec s e c hc hnone
  unfold serverStepExec
  rw [if_neg]
  intro h0
  rw [Multiset.countP_eq_zero] at h0
  exact h0 c hc hnone

/-- Witness for `command_failure_semantics`: an oracle whose every
invocation completes with stdout `"1"` lets a `TagNode` dispatch complete
unlogged, and an all-`IO`-error oracle makes the same dispatch panic. -/
theorem command_failure_semantics_witness :
    serverStepExec (fun _ => some ['1']) State.new
        (Event.TagNode ⟨['a']⟩) =
      some ((serverStep State.new (Event.TagNode ⟨['a']⟩)).1, []) ∧
      serverStepExec (fun _ => none) State.new
        (Event.TagNode ⟨['a']⟩) = none :=
  ⟨command_failure_semantics.1 _ State.new (Event.TagNode ⟨['a']⟩)
      (fun c => by cases c <;> exact fun h => Option.noConfusion h),
    command_failure_semantics.2.2.1 _ State.new (Event.TagNode ⟨['a']⟩)
      (Cmd.setBorderWidth ⟨['a']⟩ 3) (by decide) rfl⟩

/-- C8 counterexample: a read error on one connection (`none`) makes
`handle_client_stream` panic, which unwinds the listener thread: the
subsequent `"show"` connection — handled fine on its own — is never
processed. -/
theorem read_error_kills_listener :
    handle_client_stream none = none ∧
      acceptLoop [none, some "show".toList] = [] ∧
      acceptLoop [some "show".toList] = [(some Event.ShowTag, [])] :=
  ⟨rfl, rfl, rfl⟩

/-- C8 (amended): an I/O error while reading a connection's payload
panics the listener thread — nothing is logged and no subsequent
connection is processed; an unrecognized payload, in contrast, is logged
and discarded and the listener keeps serving later connections. -/
theorem listener_failure_semantics :
    handle_client_stream none = none ∧
      (∀ rs, acceptLoop (none :: rs) = []) ∧
      (∀ msg, parseMessage msg = none →
        handle_client_stream (some msg) =
          some (none, ["Unsupported message ".toList ++ msg])) ∧
      (∀ msg e, parseMessage msg = some e →
        handle_client_stream (some msg) = some (some e, [])) ∧
      (∀ msg rs, ∃ out, handle_client_stream (some msg) = some out ∧
        acceptLoop (some msg :: rs) = out :: acceptLoop rs) := by
  refine ⟨rfl, fun rs => rfl, ?_, ?_, ?_⟩
  · intro msg h
    simp only [handle_client_stream, h]
  · intro msg e h
    simp only [handle_client_stream, h]
  · intro msg rs
    cases h : parseMessage msg with
    | none =>
      have hh : handle_client_stream (some msg) =
          some (none, ["Unsupported message ".toList ++ msg]) := by
        simp only [handle_client_stream, h]
      exact ⟨_, hh, by simp only [acceptLoop, hh]⟩
    | some e =>
      have hh : handle_client_stream (some msg) = some (some e, []) := by
        simp only [handle_client_stream, h]
      exact ⟨_, hh, by simp only [acceptLoop, hh]⟩

/-- Witness for `listener_failure_semantics`: the unsupported payload
`"hide"` is logged and discarded, and a crashed read before a `"show"`
connection suppresses it. -/
theorem listener_failure_semantics_witness :
    handle_client_stream (some "hide".toList) =
        some (none, ["Unsupported message ".toList ++ "hide".toList]) ∧
      acceptLoop [none, some "show".toList] = [] :=
  ⟨listener_failure_semantics.2.2.1 "hide".toList rfl,
    listener_failure_semantics.2.1 [some "show".toList]⟩

/-- The call `stripPre pre s` succeeds with remainder `r` exactly when `s` is `pre`
followed by `r`. -/
theorem stripPre_eq_some (pre : List Char) :
    ∀ s r : List Char, stripPre pre s = some r ↔ s = pre ++ r := by
  induction pre with
  | nil =>
    intro s r
    simp [stripPre, eq_comm]
  | cons p ps ih =>
    intro s r
    cases s with
    | nil => simp [stripPre]
    | cons c cs =>
      by_cases hc : c = p
      · subst hc
        simp [stripPre, ih]
      · simp [stripPre, hc]

/-- The call `stripPre pre s` fails exactly when `s` does not extend `pre`. -/
theorem stripPre_eq_none (pre s : List Char) :
    stripPre pre s = none ↔ ∀ r : List Char, s ≠ pre ++ r := by
  constructor
  · intro h r hr
    rw [← stripPre_eq_some pre s r] at hr
    rw [h] at hr
    exact Option.noConfusion hr
  · intro h
    cases hs : stripPre pre s with
    | none => rfl
    | some r => exact absurd ((stripPre_eq_some pre s r).mp hs) (h r)

/-- C10: the listener forwards `ShowTag` exactly for the payload `"show"`
(by exact equality — any extra characters make it unsupported), forwards
`TagNode n` exactly for payloads of the form `"tag "` followed by `n`'s
identifier (the identifier may be empty), and recognizes nothing else. -/
theorem parse_message_spec (p : List Char) :
    (parseMessage p = some Event.ShowTag ↔ p = "show".toList) ∧
      (∀ n : Node, parseMessage p = some (Event.TagNode n) ↔
        p = "tag ".toList ++ n.val) ∧
      (parseMessage p = none ↔
        p ≠ "show".toList ∧ ∀ r : List Char, p ≠ "tag ".toList ++ r) := by
  by_cases hp : p = "show".toList
  · subst hp
    refine ⟨by simp [parseMessage], ?_, ?_⟩
    · intro n
      constructor
      · intro h
        simp [parseMessage] at h
      · intro h
        have : "show".toList = "tag ".toList ++ n.val := h
        simp at this
    · simp [parseMessage]
  · cases h : stripPre "tag ".toList p with
    | some node =>
      have hpeq : p = "tag ".toList ++ node :=
        (stripPre_eq_some _ _ _).mp h
      refine ⟨?_, ?_, ?_⟩
      · simp only [parseMessage, if_neg hp, h]
        constructor
        · intro hc
          exact absurd hc (by simp)
        · intro hps
          exact absurd hps hp
      · intro n
        simp only [parseMessage, if_neg hp, h, Option.some.injEq]
        constructor
        · rintro ⟨rfl⟩
          exact hpeq
        · intro hn
          rw [hpeq] at hn
          have : node = n.val := List.append_cancel_left hn
          cases n
          cases this
          rfl
      · simp only [parseMessage, if_neg hp, h]
        constructor
        · intro hc
          exact Option.noConfusion hc
        · rintro ⟨-, hall⟩
          exact absurd hpeq (hall node)
    | none =>
      have hno : ∀ r : List Char, p ≠ "tag ".toList ++ r :=
        (stripPre_eq_none _ _).mp h
      refine ⟨?_, ?_, ?_⟩
      · simp only [parseMessage, if_neg hp, h]
        constructor
        · intro hc
          exact Option.noConfusion hc
        · intro hps
          exact absurd hps hp
      · intro n
        simp only [parseMessage, if_neg hp, h]
        constructor
        · intro hc
          exact Option.noConfusion hc
        · intro hn
          exact absurd hn (hno n.val)
      · simp only [parseMessage, if_neg hp, h]
        exact ⟨fun _ => ⟨hp, hno⟩, fun _ => trivial⟩

/-- Witness for `parse_message_spec`: `"show"`, the bare marker `"tag "`
(empty identifier) and a whitespace-prefixed `" show"` payload. -/
theorem parse_message_spec_witness :
    parseMessage "show".toList = some Event.ShowTag ∧
      parseMessage "tag ".toList = some (Event.TagNode ⟨[]⟩) ∧
      parseMessage " show".toList = none :=
  ⟨(parse_message_spec "show".toList).1.mpr rfl,
    (parse_message_spec "tag ".toList).2.1 ⟨[]⟩ |>.mpr (by simp),
    (parse_message_spec " show".toList).2.2.mpr
      ⟨by decide, (stripPre_eq_none _ _).mp rfl⟩⟩

end Naaw
